import Mathlib

/-!
Shallow embedding of `src/inventory_system.py`: an in-memory item→quantity
ledger (`Inventory._data`, a Python dict) with validated add/remove/query
operations and JSON-file persistence (`save`/`load`).

Modelling conventions:
* The Python dict `self._data` is an insertion-ordered association list
  `Dict := List (String × Int)` with unique keys; `dget`/`dset`/`dpop`
  mirror `dict.get`, item assignment and `dict.pop`.
* Python ints are `Int` (unbounded). Arguments whose runtime type the code
  inspects with `isinstance` are modelled by the dynamic value type `Py`;
  arguments that every claim supplies as strings (`item`, `filename`) are
  `String`, their `isinstance(·, str)` check being enforced by the type.
* An operation that can raise returns its raised exception (if any) next to
  the post-call `_data`; `Option.none` for the error component means normal
  return.  All raises in the source happen before any mutation of `_data`,
  which the definitions reproduce.
* The file system is abstracted to the parse outcome of the target file:
  absent, syntactically malformed JSON, or a parsed JSON value (`Py`).
  `json.dump` followed by `json.load` on a string-keyed dict of ints is the
  identity on the parsed value, so `save` returns the parsed content it wrote.
-/

namespace InventorySystem

/-- Python runtime values, as far as the code inspects them with
`isinstance`: integers, strings, lists, dicts (with arbitrary keys, since
`load` checks `isinstance(k, str)`), and `None`. -/
inductive Py where
  | int (n : Int)
  | str (s : String)
  | list (xs : List Py)
  | dict (kvs : List (Py × Py))
  | null

/-- The exceptions the module can raise.  In the Python class hierarchy
`InvalidItemError` and `ItemNotFoundError` are subclasses of the base
`InventoryError`; `json.JSONDecodeError` is outside that hierarchy.
Each constructor is the *exact* (dynamic) class of the raised exception. -/
inductive PyErr where
  | invalidItem (msg : String)
  | itemNotFound (msg : String)
  | inventoryError (msg : String)
  | jsonDecodeError
deriving DecidableEq, Repr

/-- The Python class name of a raised exception (its exact dynamic class). -/
def errClass : PyErr → String
  | .invalidItem _ => "InvalidItemError"
  | .itemNotFound _ => "ItemNotFoundError"
  | .inventoryError _ => "InventoryError"
  | .jsonDecodeError => "JSONDecodeError"

/-- `Inventory._data`: a Python dict modelled as an insertion-ordered
association list with unique keys. -/
abbrev Dict := List (String × Int)

/-- `d.get(k)` on a dict: the value at the first matching key, if any. -/
def dget : Dict → String → Option Int
  | [], _ => Option.none
  | (k', v') :: rest, k => if k' = k then some v' else dget rest k

/-- `d[k] = v` on a dict: overwrite in place if the key is present
(keeping its position), otherwise append at the end. -/
def dset : Dict → String → Int → Dict
  | [], k, v => [(k, v)]
  | (k', v') :: rest, k, v =>
    if k' = k then (k', v) :: rest else (k', v') :: dset rest k v

/-- `d.pop(k, None)` on a dict: remove the entry with the given key. -/
def dpop : Dict → String → Dict
  | [], _ => []
  | (k', v') :: rest, k => if k' = k then rest else (k', v') :: dpop rest k

/-- The log line built in `add_item` (`datetime.now().isoformat()` is the
`now` parameter). -/
def addLogLine (now item : String) (qty prev cur : Int) : String :=
  s!"{now}: Added {qty} of {item} (was {prev}, now {cur})"

/-- `Inventory.add_item(item, qty, logs)`.  Validates the item name, that
`qty` is an integer and that `qty >= 0`; then stores
`previous + qty` under `item` and, when a `logs` list was supplied, appends
the log line to it.  Returns (raised exception if any, new `_data`,
the `logs` argument after the call). -/
def add_item (d : Dict) (item : String) (qty : Py) (now : String)
    (logs : Option (List String)) :
    Option PyErr × Dict × Option (List String) :=
  if item = "" then
    (some (.invalidItem "item name must be a non-empty string"), d, logs)
  else
    match qty with
    | .int q =>
      if q < 0 then
        (some (.invalidItem
          "qty must be non-negative; use remove_item to reduce quantity"), d, logs)
      else
        let previous := (dget d item).getD 0
        let line := addLogLine now item q previous (previous + q)
        (Option.none, dset d item (previous + q), logs.map (fun l => l ++ [line]))
    | _ => (some (.invalidItem "qty must be an integer"), d, logs)

/-- `Inventory.remove_item(item, qty)`.  Validation order as in the source:
item name, `isinstance(qty, int)`, `qty <= 0`, membership, sufficiency.
Insufficient quantity raises the *base* `InventoryError`.  When the new
quantity reaches 0 the key is popped. -/
def remove_item (d : Dict) (item : String) (qty : Py) : Option PyErr × Dict :=
  if item = "" then
    (some (.invalidItem "item name must be a non-empty string"), d)
  else
    match qty with
    | .int q =>
      if q ≤ 0 then
        (some (.invalidItem "qty to remove must be positive"), d)
      else
        match dget d item with
        | Option.none => (some (.itemNotFound s!"Item \x27{item}\x27 not found"), d)
        | some cur =>
          if cur < q then
            (some (.inventoryError
              s!"Insufficient quantity of \x27{item}\x27 (have {cur}, need {q})"), d)
          else
            if cur - q = 0 then (Option.none, dpop d item)
            else (Option.none, dset d item (cur - q))
    | _ => (some (.invalidItem "qty must be an integer"), d)

/-- `Inventory.get_qty(item)`: quantity stored under `item` (0 if absent). -/
def get_qty (d : Dict) (item : String) : Except PyErr Int :=
  if item = "" then .error (.invalidItem "item name must be a non-empty string")
  else .ok ((dget d item).getD 0)

/-- `Inventory.check_low_items(threshold)`: the list of keys whose value is
strictly below the threshold, in dict order.  (`threshold` is an integer by
type; the `isinstance` check cannot fail in the embedding.) -/
def check_low_items (d : Dict) (threshold : Int) : Except PyErr (List String) :=
  if threshold < 0 then
    .error (.invalidItem "threshold must be a non-negative integer")
  else .ok ((d.filter (fun kv => decide (kv.2 < threshold))).map Prod.fst)

/-- `Inventory.to_dict()`: a shallow copy of `_data` (identity in the pure
model). -/
def to_dict (d : Dict) : Dict := d

/-- Parse outcome of the target file of `load`: missing file, syntactically
invalid JSON, or the parsed JSON value. -/
inductive FileContent where
  | absent
  | malformedJson
  | parsed (v : Py)

/-- The parsed JSON value that `json.dump(self._data, f)` writes: an object
whose keys are the dict's strings and whose values are its ints. -/
def pyOfDict (d : Dict) : Py :=
  .dict (d.map (fun kv => (.str kv.1, .int kv.2)))

/-- `Inventory.save(filename)`: writes `_data` as a JSON object.  The write
is modelled as succeeding (the `OSError` path re-raises and is not needed by
any claim); the result is the parse outcome of the written file. -/
def save (d : Dict) : FileContent := .parsed (pyOfDict d)

/-- The validation loop of `Inventory.load`: builds `sanitized` by iterating
the parsed object's entries, raising the base `InventoryError` at the first
non-string key or non-`int`/negative value. -/
def sanitizeEntries (acc : Dict) : List (Py × Py) → Except PyErr Dict
  | [] => .ok acc
  | (k, v) :: rest =>
    match k with
    | .str s =>
      match v with
      | .int n =>
        if n < 0 then
          .error (.inventoryError
            "Invalid quantity in file (must be non-negative integer)")
        else sanitizeEntries (dset acc s n) rest
      | _ =>
        .error (.inventoryError
          "Invalid quantity in file (must be non-negative integer)")
    | _ => .error (.inventoryError "Invalid item name in file (must be string)")

/-- `Inventory.load(filename)`.  A missing file is caught
(`except FileNotFoundError`) and leaves `_data` unchanged; malformed JSON
re-raises `json.JSONDecodeError`; a parsed value that is not an object, or
fails entry validation, raises the base `InventoryError` with `_data`
unchanged; on success `_data` is replaced wholesale by `sanitized`. -/
def load (d : Dict) (file : FileContent) : Option PyErr × Dict :=
  match file with
  | .absent => (Option.none, d)
  | .malformedJson => (some .jsonDecodeError, d)
  | .parsed data =>
    match data with
    | .dict kvs =>
      match sanitizeEntries [] kvs with
      | .ok s => (Option.none, s)
      | .error e => (some e, d)
    | _ => (some (.inventoryError "Inventory file did not contain a JSON object"), d)

/-- A file content every entry of which carries a strictly positive
integer value (relevant entries of a parsed object; non-objects impose
nothing, since loading them fails). -/
def filePositive : FileContent → Prop
  | .parsed (.dict kvs) => ∀ p ∈ kvs, ∀ n : Int, p.2 = Py.int n → 0 < n
  | _ => True

/-- A parsed JSON value that violates `load`'s structural validation:
not an object, or an object with an entry whose key is not a string or
whose value is not an integer `≥ 0`. -/
def BadParsed : Py → Prop
  | .dict kvs =>
    ∃ p ∈ kvs, (∀ s, p.1 ≠ Py.str s) ∨ (∀ n : Int, p.2 = Py.int n → n < 0)
  | _ => True

/-- Ledger states reachable from the empty dict by successful `add_item`,
`remove_item` and `load` calls.  Seeding through the constructor
`Inventory(initial)` is a sequence of `add_item` calls from the empty dict,
so it is covered by `addStep`. -/
inductive Reachable : Dict → Prop where
  | empty : Reachable []
  | addStep (d : Dict) (item : String) (qty : Py) (now : String)
      (logs : Option (List String)) (h : Reachable d)
      (hok : (add_item d item qty now logs).1 = Option.none) :
      Reachable (add_item d item qty now logs).2.1
  | removeStep (d : Dict) (item : String) (qty : Py) (h : Reachable d)
      (hok : (remove_item d item qty).1 = Option.none) :
      Reachable (remove_item d item qty).2
  | loadStep (d : Dict) (file : FileContent) (h : Reachable d)
      (hok : (load d file).1 = Option.none) :
      Reachable (load d file).2

/-- Reachability restricted as the counterexample to the zero-free
invariant forces: an `add_item` step must add a positive quantity or
target an item already present, and a `load` step must read a file with
only positive values. -/
inductive ReachablePos : Dict → Prop where
  | empty : ReachablePos []
  | addStep (d : Dict) (item : String) (qty : Py) (now : String)
      (logs : Option (List String)) (h : ReachablePos d)
      (hpos : (∀ n : Int, qty = Py.int n → 0 < n) ∨ (dget d item).isSome = true)
      (hok : (add_item d item qty now logs).1 = Option.none) :
      ReachablePos (add_item d item qty now logs).2.1
  | removeStep (d : Dict) (item : String) (qty : Py) (h : ReachablePos d)
      (hok : (remove_item d item qty).1 = Option.none) :
      ReachablePos (remove_item d item qty).2
  | loadStep (d : Dict) (file : FileContent) (h : ReachablePos d)
      (hpos : filePositive file)
      (hok : (load d file).1 = Option.none) :
      ReachablePos (load d file).2

/-! ## Dict lemmas -/

theorem dget_mem {d : Dict} {k : String} {v : Int} (h : dget d k = some v) :
    (k, v) ∈ d := by
  induction d with
  | nil => simp [dget] at h
  | cons p rest ih =>
    obtain ⟨k', v'⟩ := p
    by_cases hk : k' = k
    · subst hk
      simp [dget] at h
      subst h
      exact List.mem_cons_self _ _
    · simp [dget, hk] at h
      exact List.mem_cons_of_mem _ (ih h)

theorem mem_dset {d : Dict} {k : String} {v : Int} {p : String × Int}
    (h : p ∈ dset d k v) : p = (k, v) ∨ p ∈ d := by
  induction d with
  | nil =>
    simp [dset] at h
    exact Or.inl h
  | cons q rest ih =>
    obtain ⟨k', v'⟩ := q
    by_cases hk : k' = k
    · subst hk
      simp only [dset, if_pos rfl] at h
      rcases List.mem_cons.mp h with h | h
      · exact Or.inl h
      · exact Or.inr (List.mem_cons_of_mem _ h)
    · simp only [dset, if_neg hk] at h
      rcases List.mem_cons.mp h with h | h
      · exact Or.inr (h ▸ List.mem_cons_self _ _)
      · rcases ih h with h | h
        · exact Or.inl h
        · exact Or.inr (List.mem_cons_of_mem _ h)

theorem mem_dpop {d : Dict} {k : String} {p : String × Int}
    (h : p ∈ dpop d k) : p ∈ d := by
  induction d with
  | nil => simp [dpop] at h
  | cons q rest ih =>
    obtain ⟨k', v'⟩ := q
    by_cases hk : k' = k
    · simp only [dpop, if_pos hk] at h
      exact List.mem_cons_of_mem _ h
    · simp only [dpop, if_neg hk] at h
      rcases List.mem_cons.mp h with h | h
      · exact h ▸ List.mem_cons_self _ _
      · exact List.mem_cons_of_mem _ (ih h)

theorem dget_dset_self (d : Dict) (k : String) (v : Int) :
    dget (dset d k v) k = some v := by
  induction d with
  | nil => simp [dset, dget]
  | cons q rest ih =>
    obtain ⟨k', v'⟩ := q
    by_cases hk : k' = k
    · simp [dset, dget, hk]
    · simp [dset, dget, hk, ih]

theorem dget_dset_ne {k x : String} (d : Dict) (v : Int) (hne : k ≠ x) :
    dget (dset d k v) x = dget d x := by
  induction d with
  | nil => simp [dset, dget, hne]
  | cons q rest ih =>
    obtain ⟨k', v'⟩ := q
    by_cases hk : k' = k
    · subst hk
      simp [dset, dget, hne]
    · simp only [dset, if_neg hk]
      by_cases hx : k' = x
      · simp [dget, hx]
      · simp [dget, hx, ih]

theorem dset_eq_append {d : Dict} {k : String} (v : Int)
    (h : dget d k = Option.none) : dset d k v = d ++ [(k, v)] := by
  induction d with
  | nil => simp [dset]
  | cons q rest ih =>
    obtain ⟨k', v'⟩ := q
    by_cases hk : k' = k
    · simp [dget, hk] at h
    · simp only [dget, if_neg hk] at h
      simp [dset, hk, ih h]

/-! ## Run lemmas: what a successful operation did -/

theorem add_item_run (d : Dict) (item : String) (q : Int) (now : String)
    (logs : Option (List String)) (hi : item ≠ "") (hq : 0 ≤ q) :
    add_item d item (Py.int q) now logs =
      (Option.none, dset d item ((dget d item).getD 0 + q),
        logs.map (fun l => l ++
          [addLogLine now item q ((dget d item).getD 0) ((dget d item).getD 0 + q)])) := by
  simp [add_item, hi, not_lt.mpr hq]

theorem add_item_ok {d : Dict} {item : String} {qty : Py} {now : String}
    {logs : Option (List String)}
    (h : (add_item d item qty now logs).1 = Option.none) :
    ∃ q : Int, qty = Py.int q ∧ item ≠ "" ∧ 0 ≤ q ∧
      (add_item d item qty now logs).2.1 =
        dset d item ((dget d item).getD 0 + q) := by
  by_cases hi : item = ""
  · simp [add_item, hi] at h
  · cases qty with
    | int q =>
      by_cases hq : q < 0
      · simp [add_item, hi, hq] at h
      · exact ⟨q, rfl, hi, not_lt.mp hq, by simp [add_item, hi, hq]⟩
    | str s => simp [add_item, hi] at h
    | list xs => simp [add_item, hi] at h
    | dict kvs => simp [add_item, hi] at h
    | null => simp [add_item, hi] at h

theorem remove_item_ok {d : Dict} {item : String} {qty : Py}
    (h : (remove_item d item qty).1 = Option.none) :
    ∃ q cur : Int, qty = Py.int q ∧ item ≠ "" ∧ 0 < q ∧
      dget d item = some cur ∧ q ≤ cur ∧
      (remove_item d item qty).2 =
        (if cur - q = 0 then dpop d item else dset d item (cur - q)) := by
  by_cases hi : item = ""
  · simp [remove_item, hi] at h
  · cases qty with
    | int q =>
      by_cases hq : q ≤ 0
      · simp [remove_item, hi, hq] at h
      · cases hcur : dget d item with
        | none => simp [remove_item, hi, hq, hcur] at h
        | some cur =>
          by_cases hlt : cur < q
          · simp [remove_item, hi, hq, hcur, hlt] at h
          · refine ⟨q, cur, rfl, hi, not_le.mp hq, rfl, not_lt.mp hlt, ?_⟩
            by_cases hz : cur - q = 0
            · simp [remove_item, hi, hq, hcur, hlt, hz]
            · simp [remove_item, hi, hq, hcur, hlt, hz]
    | str s => simp [remove_item, hi] at h
    | list xs => simp [remove_item, hi] at h
    | dict kvs => simp [remove_item, hi] at h
    | null => simp [remove_item, hi] at h

theorem load_ok {d : Dict} {file : FileContent}
    (h : (load d file).1 = Option.none) :
    (load d file).2 = d ∨
      ∃ kvs, file = FileContent.parsed (Py.dict kvs) ∧
        sanitizeEntries [] kvs = Except.ok ((load d file).2) := by
  cases file with
  | absent => exact Or.inl rfl
  | malformedJson => simp [load] at h
  | parsed v =>
    cases v with
    | dict kvs =>
      cases hs : sanitizeEntries [] kvs with
      | ok s => exact Or.inr ⟨kvs, rfl, by simp [load, hs]⟩
      | error e => simp [load, hs] at h
    | int n => simp [load] at h
    | str s => simp [load] at h
    | list xs => simp [load] at h
    | null => simp [load] at h

theorem sanitizeEntries_pos {kvs : List (Py × Py)} :
    ∀ {acc s : Dict}, (∀ p ∈ acc, 0 < p.2) →
      (∀ p ∈ kvs, ∀ n : Int, p.2 = Py.int n → 0 < n) →
      sanitizeEntries acc kvs = Except.ok s → ∀ p ∈ s, 0 < p.2 := by
  induction kvs with
  | nil =>
    intro acc s hacc _ h
    simp [sanitizeEntries] at h
    exact h ▸ hacc
  | cons e rest ih =>
    intro acc s hacc hfile h
    obtain ⟨k, v⟩ := e
    cases k with
    | str ks =>
      cases v with
      | int n =>
        by_cases hn : n < 0
        · simp [sanitizeEntries, hn] at h
        · simp only [sanitizeEntries, if_neg hn] at h
          have hnpos : 0 < n :=
            hfile (Py.str ks, Py.int n) (List.mem_cons_self _ _) n rfl
          have hacc' : ∀ p ∈ dset acc ks n, 0 < p.2 := by
            intro p hp
            rcases mem_dset hp with rfl | hp
            · exact hnpos
            · exact hacc p hp
          exact ih hacc' (fun p hp => hfile p (List.mem_cons_of_mem _ hp)) h
      | str s2 => simp [sanitizeEntries] at h
      | list xs => simp [sanitizeEntries] at h
      | dict kvs2 => simp [sanitizeEntries] at h
      | null => simp [sanitizeEntries] at h
    | int n => simp [sanitizeEntries] at h
    | list xs => simp [sanitizeEntries] at h
    | dict kvs2 => simp [sanitizeEntries] at h
    | null => simp [sanitizeEntries] at h

theorem reachablePos_values_pos {d : Dict} (h : ReachablePos d) :
    ∀ p ∈ d, 0 < p.2 := by
  induction h with
  | empty => intro p hp; simp at hp
  | addStep d item qty now logs h hpos hok ih =>
    obtain ⟨q, hq, hi, hq0, heq⟩ := add_item_ok hok
    rw [heq]
    intro p hp
    rcases mem_dset hp with rfl | hp
    · show 0 < (dget d item).getD 0 + q
      rcases hpos with hpos | hpos
      · have hqpos : 0 < q := hpos q hq
        have hprev : 0 ≤ (dget d item).getD 0 := by
          cases hd : dget d item with
          | none => simp
          | some v =>
            simpa using le_of_lt (ih (item, v) (dget_mem hd))
        linarith
      · obtain ⟨v, hv⟩ := Option.isSome_iff_exists.mp hpos
        have hvpos := ih (item, v) (dget_mem hv)
        simp only [hv, Option.getD_some]
        simp only at hvpos
        linarith
    · exact ih p hp
  | removeStep d item qty h hok ih =>
    obtain ⟨q, cur, hq, hi, hqpos, hcur, hle, heq⟩ := remove_item_ok hok
    rw [heq]
    by_cases hz : cur - q = 0
    · simp only [if_pos hz]
      intro p hp
      exact ih p (mem_dpop hp)
    · simp only [if_neg hz]
      intro p hp
      rcases mem_dset hp with rfl | hp
      · show 0 < cur - q
        omega
      · exact ih p hp
  | loadStep d file h hpos hok ih =>
    rcases load_ok hok with heq | ⟨kvs, hfile, hs⟩
    · rw [heq]; exact ih
    · subst hfile
      simp only [filePositive] at hpos
      exact sanitizeEntries_pos (by simp) hpos hs

theorem sanitizeEntries_roundtrip :
    ∀ {d : Dict} (acc : Dict), (d.map Prod.fst).Nodup →
      (∀ p ∈ d, dget acc p.1 = Option.none) →
      (∀ p ∈ d, 0 ≤ p.2) →
      sanitizeEntries acc (d.map (fun kv => (Py.str kv.1, Py.int kv.2))) =
        Except.ok (acc ++ d) := by
  intro d
  induction d with
  | nil =>
    intro acc _ _ _
    simp [sanitizeEntries]
  | cons p rest ih =>
    intro acc hnodup hdisj hnn
    obtain ⟨k, v⟩ := p
    have hv : ¬ v < 0 := not_lt.mpr (hnn (k, v) (List.mem_cons_self _ _))
    have hset : dset acc k v = acc ++ [(k, v)] :=
      dset_eq_append v (hdisj (k, v) (List.mem_cons_self _ _))
    have hknotin : k ∉ rest.map Prod.fst := (List.nodup_cons.mp hnodup).1
    have hdisj' : ∀ p ∈ rest, dget (acc ++ [(k, v)]) p.1 = Option.none := by
      intro p hp
      have hne : k ≠ p.1 := fun he => hknotin (he ▸ List.mem_map_of_mem Prod.fst hp)
      rw [← hset, dget_dset_ne acc v hne]
      exact hdisj p (List.mem_cons_of_mem _ hp)
    have hrest := ih (acc ++ [(k, v)]) (List.nodup_cons.mp hnodup).2 hdisj'
      (fun p hp => hnn p (List.mem_cons_of_mem _ hp))
    simp only [List.map_cons, sanitizeEntries, if_neg hv, hset, hrest]
    simp

theorem sanitizeEntries_bad :
    ∀ {kvs : List (Py × Py)} (acc : Dict),
      (∃ p ∈ kvs, (∀ s, p.1 ≠ Py.str s) ∨ (∀ n : Int, p.2 = Py.int n → n < 0)) →
      ∃ msg, sanitizeEntries acc kvs = Except.error (PyErr.inventoryError msg) := by
  intro kvs
  induction kvs with
  | nil =>
    intro acc h
    obtain ⟨p, hp, _⟩ := h
    simp at hp
  | cons e rest ih =>
    intro acc h
    obtain ⟨k, v⟩ := e
    cases k with
    | str ks =>
      cases v with
      | int n =>
        by_cases hn : n < 0
        · exact ⟨"Invalid quantity in file (must be non-negative integer)",
            by simp [sanitizeEntries, hn]⟩
        · obtain ⟨p, hp, hbad⟩ := h
          rcases List.mem_cons.mp hp with rfl | hp
          · rcases hbad with hbad | hbad
            · exact absurd rfl (hbad ks)
            · exact absurd (hbad n rfl) hn
          · simp only [sanitizeEntries, if_neg hn]
            exact ih (dset acc ks n) ⟨p, hp, hbad⟩
      | str s2 =>
        exact ⟨"Invalid quantity in file (must be non-negative integer)",
          by simp [sanitizeEntries]⟩
      | list xs =>
        exact ⟨"Invalid quantity in file (must be non-negative integer)",
          by simp [sanitizeEntries]⟩
      | dict kvs2 =>
        exact ⟨"Invalid quantity in file (must be non-negative integer)",
          by simp [sanitizeEntries]⟩
      | null =>
        exact ⟨"Invalid quantity in file (must be non-negative integer)",
          by simp [sanitizeEntries]⟩
    | int n =>
      exact ⟨"Invalid item name in file (must be string)", by simp [sanitizeEntries]⟩
    | list xs =>
      exact ⟨"Invalid item name in file (must be string)", by simp [sanitizeEntries]⟩
    | dict kvs2 =>
      exact ⟨"Invalid item name in file (must be string)", by simp [sanitizeEntries]⟩
    | null =>
      exact ⟨"Invalid item name in file (must be string)", by simp [sanitizeEntries]⟩

/-! ## Claims -/

/-- C1, counterexample: the state `{"a": 0}` is reachable from the empty
ledger — a single successful `add_item("a", 0)` stores quantity 0 under an
absent key (`previous = 0`, `0 + 0 = 0` is stored) — so a key *can* be
present with value 0 in a reachable state. -/
theorem C1_counterexample :
    Reachable [("a", (0 : Int))] ∧ dget [("a", (0 : Int))] "a" = some 0 := by
  constructor
  · have h := Reachable.addStep [] "a" (Py.int 0) "" Option.none Reachable.empty rfl
    have he : (add_item [] "a" (Py.int 0) "" Option.none).2.1 = [("a", (0 : Int))] := rfl
    exact he ▸ h
  · rfl

/-- C1 (amended): in every state reached from the empty ledger by successful
add, remove and load operations in which each `add_item` either adds a
strictly positive quantity or targets an item already present, and each
loaded file holds only strictly positive values, no key is present with
value 0 (indeed every stored value is strictly positive; in particular a
removal that brings a quantity to exactly 0 deletes the key). -/
theorem C1_no_zero_amended {d : Dict} (h : ReachablePos d) :
    ∀ p ∈ d, p.2 ≠ 0 :=
  fun p hp => (reachablePos_values_pos h p hp).ne'

theorem C1_no_zero_amended_witness : ((3 : Int) ≠ 0) := by
  have hr : ReachablePos [("a", (3 : Int))] := by
    have h := ReachablePos.addStep [] "a" (Py.int 3) "" Option.none ReachablePos.empty
      (Or.inl (fun n hn => by cases hn; decide)) rfl
    have he : (add_item [] "a" (Py.int 3) "" Option.none).2.1 = [("a", (3 : Int))] := rfl
    exact he ▸ h
  exact C1_no_zero_amended hr ("a", 3) (List.mem_cons_self _ _)

/-- C2: for a ledger state whose mapping has (pairwise distinct) non-empty
string keys and non-negative integer values, `save` followed by `load` on
the same target succeeds and reproduces the mapping: the snapshot
(`to_dict`) after the load equals the snapshot before the save. -/
theorem C2_save_load_roundtrip (d : Dict)
    (hkeys : (d.map Prod.fst).Nodup)
    (hne : ∀ p ∈ d, p.1 ≠ "")
    (hnn : ∀ p ∈ d, 0 ≤ p.2) :
    load d (save d) = (Option.none, d) ∧
      to_dict (load d (save d)).2 = to_dict d := by
  have hs := sanitizeEntries_roundtrip ([] : Dict) hkeys
    (fun p _ => rfl) hnn
  constructor
  · simp [load, save, pyOfDict, hs]
  · simp [to_dict, load, save, pyOfDict, hs]

theorem C2_save_load_roundtrip_witness :
    load [("a", (2 : Int))] (save [("a", (2 : Int))]) = (Option.none, [("a", (2 : Int))]) ∧
      to_dict (load [("a", (2 : Int))] (save [("a", (2 : Int))])).2
        = to_dict [("a", (2 : Int))] :=
  C2_save_load_roundtrip [("a", 2)] (by decide) (by decide) (by decide)

/-- C3, counterexample: removing 2 of an item held with quantity 1 raises
an exception whose exact class is the *base* `InventoryError` — the generic
root of the module's exception hierarchy — not a distinct
`InsufficientQuantity` subclass (the source defines none), so the failure is
not discriminable from a generic inventory error by exception class. -/
theorem C3_counterexample :
    ((remove_item [("a", (1 : Int))] "a" (Py.int 2)).1).map errClass
        = some "InventoryError" ∧
      ("InventoryError" : String) ≠ "InvalidItemError" ∧
      ("InventoryError" : String) ≠ "ItemNotFoundError" ∧
      (remove_item [("a", (1 : Int))] "a" (Py.int 2)).2 = [("a", (1 : Int))] := by
  refine ⟨rfl, by decide, by decide, rfl⟩

/-- C3 (amended): for every ledger state, every item present with stored
quantity `h` and every `q` with `0 < q` and `h < q`, `remove_item(item, q)`
raises the catchable *base* `InventoryError` (the source defines no distinct
`InsufficientQuantity` subclass), its message reports both the held amount
`h` and the requested amount `q`, and `_data` — in particular the stored
quantity of `item` — is unchanged. -/
theorem C3_insufficient_amended (d : Dict) (item : String) (h q : Int)
    (hitem : item ≠ "") (hmem : dget d item = some h) (hq : 0 < q) (hlt : h < q) :
    remove_item d item (Py.int q) =
      (some (PyErr.inventoryError
        s!"Insufficient quantity of \x27{item}\x27 (have {h}, need {q})"), d) := by
  simp [remove_item, hitem, not_le.mpr hq, hmem, hlt]

theorem C3_insufficient_amended_witness :
    remove_item [("a", (1 : Int))] "a" (Py.int 2) =
      (some (PyErr.inventoryError
        "Insufficient quantity of \x27a\x27 (have 1, need 2)"), [("a", (1 : Int))]) :=
  C3_insufficient_amended [("a", 1)] "a" 1 2 (by decide) rfl (by decide) (by decide)

/-- C4, counterexample: loading a file whose JSON content is an array fails,
but the raised exception's exact class is the *base* `InventoryError`, not
the `InvalidItemError` class that realizes the spec's InvalidInput kind
(the mapping is indeed left unchanged). -/
theorem C4_counterexample :
    ((load [("x", (5 : Int))] (FileContent.parsed (Py.list []))).1).map errClass
        = some "InventoryError" ∧
      ("InventoryError" : String) ≠ "InvalidItemError" ∧
      (load [("x", (5 : Int))] (FileContent.parsed (Py.list []))).2
        = [("x", (5 : Int))] := by
  refine ⟨rfl, by decide, rfl⟩

/-- C4 (amended): for every ledger state, `load` on a file whose parsed JSON
content is not an object, or contains a non-string key, or a value that is
not an integer `≥ 0`, raises the catchable *base* `InventoryError` (not the
`InvalidItemError` class) and leaves the in-memory mapping unchanged. -/
theorem C4_load_invalid_amended (d : Dict) (v : Py) (hbad : BadParsed v) :
    ((load d (FileContent.parsed v)).1).map errClass = some "InventoryError" ∧
      (load d (FileContent.parsed v)).2 = d := by
  cases v with
  | dict kvs =>
    simp only [BadParsed] at hbad
    obtain ⟨msg, hmsg⟩ := sanitizeEntries_bad [] hbad
    simp [load, hmsg, errClass]
  | int n => simp [load, errClass]
  | str s => simp [load, errClass]
  | list xs => simp [load, errClass]
  | null => simp [load, errClass]

theorem C4_load_invalid_amended_witness :
    ((load [] (FileContent.parsed (Py.dict [(Py.str "a", Py.int (-1))]))).1).map errClass
        = some "InventoryError" ∧
      (load [] (FileContent.parsed (Py.dict [(Py.str "a", Py.int (-1))]))).2 = [] :=
  C4_load_invalid_amended [] (Py.dict [(Py.str "a", Py.int (-1))])
    ⟨(Py.str "a", Py.int (-1)), List.mem_cons_self _ _,
      Or.inr (fun n hn => by cases hn; decide)⟩

/-- C5: from any state in which `item` (non-empty) is absent,
`add_item(item, q1)` then `add_item(item, q2)` with `0 ≤ q1`, `0 ≤ q2` both
succeed and `get_qty(item)` then returns `q1 + q2`. -/
theorem C5_add_add (d : Dict) (item : String) (q1 q2 : Int) (t1 t2 : String)
    (hitem : item ≠ "") (habs : dget d item = Option.none)
    (h1 : 0 ≤ q1) (h2 : 0 ≤ q2) :
    (add_item d item (Py.int q1) t1 Option.none).1 = Option.none ∧
      (add_item (add_item d item (Py.int q1) t1 Option.none).2.1
        item (Py.int q2) t2 Option.none).1 = Option.none ∧
      get_qty (add_item (add_item d item (Py.int q1) t1 Option.none).2.1
        item (Py.int q2) t2 Option.none).2.1 item = Except.ok (q1 + q2) := by
  have e1 := add_item_run d item q1 t1 Option.none hitem h1
  have hd1 : (add_item d item (Py.int q1) t1 Option.none).2.1 = dset d item q1 := by
    rw [e1]
    simp [habs]
  have e2 := add_item_run (dset d item q1) item q2 t2 Option.none hitem h2
  refine ⟨by rw [e1], ?_, ?_⟩
  · rw [hd1, e2]
  · rw [hd1, e2]
    simp [get_qty, hitem, dget_dset_self]

theorem C5_add_add_witness :
    (add_item [] "a" (Py.int 2) "" Option.none).1 = Option.none ∧
      (add_item (add_item [] "a" (Py.int 2) "" Option.none).2.1
        "a" (Py.int 3) "" Option.none).1 = Option.none ∧
      get_qty (add_item (add_item [] "a" (Py.int 2) "" Option.none).2.1
        "a" (Py.int 3) "" Option.none).2.1 "a" = Except.ok (2 + 3) :=
  C5_add_add [] "a" 2 3 "" "" (by decide) rfl (by decide) (by decide)

/-- C6: for every ledger state (non-negative values, as the data model
guarantees) and every threshold `0 ≤ t`, `check_low_items` succeeds and
returns exactly the keys whose value is strictly below `t`: a name is in the
result iff it is in the map with a value `< t`; in particular
`check_low_items(d, 0)` returns the empty list. -/
theorem C6_check_low (d : Dict) (t : Int) (k : String)
    (ht : 0 ≤ t) (hnn : ∀ p ∈ d, 0 ≤ p.2) :
    check_low_items d t =
        Except.ok ((d.filter (fun kv => decide (kv.2 < t))).map Prod.fst) ∧
      (k ∈ (d.filter (fun kv => decide (kv.2 < t))).map Prod.fst ↔
        ∃ v, (k, v) ∈ d ∧ v < t) ∧
      check_low_items d 0 = Except.ok [] := by
  refine ⟨by simp [check_low_items, not_lt.mpr ht], ?_, ?_⟩
  · constructor
    · intro hk
      obtain ⟨⟨pk, pv⟩, hp, hpk⟩ := List.mem_map.mp hk
      obtain ⟨hpd, hplt⟩ := List.mem_filter.mp hp
      subst hpk
      exact ⟨pv, hpd, by simpa using hplt⟩
    · rintro ⟨v, hvd, hvt⟩
      exact List.mem_map.mpr ⟨(k, v), List.mem_filter.mpr ⟨hvd, by simpa using hvt⟩, rfl⟩
  · have hfil : d.filter (fun kv => decide (kv.2 < (0 : Int))) = [] := by
      rw [List.filter_eq_nil_iff]
      intro a ha
      simp [not_lt.mpr (hnn a ha)]
    simp [check_low_items, hfil]

theorem C6_check_low_witness :
    check_low_items [("a", (1 : Int))] 5 =
        Except.ok (([("a", (1 : Int))].filter
          (fun kv => decide (kv.2 < (5 : Int)))).map Prod.fst) ∧
      ("a" ∈ ([("a", (1 : Int))].filter
          (fun kv => decide (kv.2 < (5 : Int)))).map Prod.fst ↔
        ∃ v, (("a", v) ∈ [("a", (1 : Int))]) ∧ v < 5) ∧
      check_low_items [("a", (1 : Int))] 0 = Except.ok [] :=
  C6_check_low [("a", 1)] 5 "a" (by decide) (by decide)

/-- C7: for every ledger state, `load` on a missing file raises nothing
(the `FileNotFoundError` is caught and only logged) and leaves the
in-memory mapping unchanged. -/
theorem C7_load_missing (d : Dict) :
    load d FileContent.absent = (Option.none, d) := rfl

/-- C8: from any state in which `item` (non-empty) is absent,
`add_item(item, 0)` succeeds and afterwards `item` is present in the
mapping with stored value 0. -/
theorem C8_add_zero_absent (d : Dict) (item : String) (t : String)
    (logs : Option (List String)) (hitem : item ≠ "")
    (habs : dget d item = Option.none) :
    (add_item d item (Py.int 0) t logs).1 = Option.none ∧
      dget (add_item d item (Py.int 0) t logs).2.1 item = some 0 := by
  rw [add_item_run d item 0 t logs hitem le_rfl]
  simp [habs, dget_dset_self]

theorem C8_add_zero_absent_witness :
    (add_item [] "a" (Py.int 0) "" Option.none).1 = Option.none ∧
      dget (add_item [] "a" (Py.int 0) "" Option.none).2.1 "a" = some 0 :=
  C8_add_zero_absent [] "a" "" Option.none (by decide) rfl

/-- C9: in `remove_item`, argument validation precedes the existence check:
whenever `qty` is not an integer, or is an integer `≤ 0`, the call raises
`InvalidItemError` (the class realizing the spec's InvalidInput kind) with
`_data` unchanged — for *every* state and item, in particular when the item
is absent — never `ItemNotFoundError`. -/
theorem C9_remove_validation_precedence (d : Dict) (item : String) (qty : Py)
    (hbad : (∀ n : Int, qty ≠ Py.int n) ∨ ∃ n : Int, qty = Py.int n ∧ n ≤ 0) :
    ((remove_item d item qty).1).map errClass = some "InvalidItemError" ∧
      (remove_item d item qty).2 = d := by
  by_cases hi : item = ""
  · subst hi
    simp [remove_item, errClass]
  · rcases hbad with hbad | ⟨n, rfl, hn⟩
    · cases qty with
      | int n => exact absurd rfl (hbad n)
      | str s => simp [remove_item, hi, errClass]
      | list xs => simp [remove_item, hi, errClass]
      | dict kvs => simp [remove_item, hi, errClass]
      | null => simp [remove_item, hi, errClass]
    · simp [remove_item, hi, hn, errClass]

theorem C9_remove_validation_precedence_witness :
    ((remove_item [("b", (1 : Int))] "a" (Py.str "x")).1).map errClass
        = some "InvalidItemError" ∧
      (remove_item [("b", (1 : Int))] "a" (Py.str "x")).2 = [("b", (1 : Int))] :=
  C9_remove_validation_precedence [("b", 1)] "a" (Py.str "x")
    (Or.inl (fun n h => Py.noConfusion h))

/-- C10: the optional `logs` output list never influences `_data`: the
post-call mapping of `add_item` is the same with and without a supplied
list; on a successful call exactly one line is appended to the supplied
list, and on a raising call the supplied list is unchanged. -/
theorem C10_logs_frame (d : Dict) (item : String) (qty : Py) (t : String)
    (l : List String) :
    (add_item d item qty t (some l)).2.1 = (add_item d item qty t Option.none).2.1 ∧
      ((add_item d item qty t (some l)).1 = Option.none →
        ∃ line, (add_item d item qty t (some l)).2.2 = some (l ++ [line])) ∧
      ((add_item d item qty t (some l)).1 ≠ Option.none →
        (add_item d item qty t (some l)).2.2 = some l) := by
  by_cases hi : item = ""
  · simp [add_item, hi]
  · cases qty with
    | int q =>
      by_cases hq : q < 0
      · simp [add_item, hi, hq]
      · refine ⟨by simp [add_item, hi, hq], fun _ => ?_, fun hne => ?_⟩
        · exact ⟨addLogLine t item q ((dget d item).getD 0) ((dget d item).getD 0 + q),
            by simp [add_item, hi, hq]⟩
        · exact absurd (by simp [add_item, hi, hq]) hne
    | str s => simp [add_item, hi]
    | list xs => simp [add_item, hi]
    | dict kvs => simp [add_item, hi]
    | null => simp [add_item, hi]

theorem C10_logs_frame_witness :
    ∃ line, (add_item [] "a" (Py.int 1) "t" (some [])).2.2 = some ([] ++ [line]) :=
  (C10_logs_frame [] "a" (Py.int 1) "t" []).2.1 rfl

end InventorySystem
